import Mathlib

/- Shallow embedding of the clash-benchmark testing engine:
   src/main.py, src/src/metrics.py, src/src/tester.py, src/src/geo.py,
   src/src/dedup.py, src/src/mihomo_manager.py.

   Modelling conventions:
   * Python floats are modelled as exact rationals (ℚ); the single
     irrational operation, the square root inside statistics.stdev, is
     modelled in ℝ.
   * Python None is Option.none; Optional[T] fields are Option-typed.
   * Attributes that the Python code adds to a dataclass instance
     dynamically (they are NOT declared in the dataclass) are modelled as
     Option-wrapped fields whose none value means "attribute absent":
     reading such a field in Python before it is written raises
     AttributeError.
   * The external mihomo router (not part of this repository's sources) is
     modelled from the spec, section 6: the generated config has one
     select-type group test-group with rule MATCH,test-group, so a request
     through the SOCKS5 port is served via whichever proxy is currently
     selected in test-group. -/

/-- statistics.mean over rationals.  Only called on non-empty lists in the
    sources (Python raises on an empty list; Lean's division by zero just
    yields 0 and is never exercised by the theorems). -/
def pyMean (l : List ℚ) : ℚ := l.sum / l.length

/-- statistics.mean over reals (used for the jitter column, whose values
    carry a square root). -/
noncomputable def pyMeanR (l : List ℝ) : ℝ := l.sum / l.length

/-- statistics.median: sort, take the middle element, or the mean of the
    two middle elements when the length is even. -/
def pyMedian (l : List ℚ) : ℚ :=
  let s := List.insertionSort (· ≤ ·) l
  let n := s.length
  if n % 2 = 1 then s.getD (n / 2) 0
  else (s.getD (n / 2 - 1) 0 + s.getD (n / 2) 0) / 2

/-- statistics.stdev: sample standard deviation,
    sqrt (Σ (x - mean)² / (n - 1)).  Only called with 2 ≤ n. -/
noncomputable def pyStdev (l : List ℚ) : ℝ :=
  Real.sqrt ((((l.map (fun x => (x - pyMean l) ^ 2)).sum : ℚ) : ℝ) /
    ((l.length : ℝ) - 1))

/-- NodeMetrics from src/src/metrics.py (dataclass field defaults included).
    The trailing two fields speed_mbps and speed_blocked are NOT declared by
    the dataclass: src/src/tester.py's _test_node_speed assigns them
    dynamically.  They are therefore modelled as Option-wrapped
    ("none" = attribute absent).  tested_at (a wall-clock timestamp) is
    omitted; no claim concerns it. -/
structure NodeMetrics where
  node_name : String
  node_type : String := "unknown"
  server : String := ""
  port : ℤ := 0
  source_name : String := ""
  is_alive : Bool := false
  latency_samples : List ℚ := []
  latency_median : Option ℚ := none
  latency_p95 : Option ℚ := none
  latency_jitter : Option ℝ := none
  latency_loss_rate : ℚ := 1
  speed_intl_mbps : Option ℚ := none
  speed_intl_blocked : Bool := false
  speed_domestic_mbps : Option ℚ := none
  speed_domestic_blocked : Bool := false
  exit_ip : Option String := none
  exit_country : Option String := none
  exit_city : Option String := none
  exit_isp : Option String := none
  speed_mbps : Option (Option ℚ) := none
  speed_blocked : Option Bool := none

/-- NodeMetrics construction in src/main.py (run, "Build metrics map"):
    every field other than the five passed explicitly keeps its dataclass
    default. -/
def mkNodeMetrics (name ty server : String) (port : ℤ) (src : String) :
    NodeMetrics :=
  { node_name := name, node_type := ty, server := server, port := port,
    source_name := src }

/-- NodeMetrics.compute_latency_stats from src/src/metrics.py.
    math.ceil(0.95 * n) on Python floats is modelled exactly over ℚ; the
    two agree for every list length the program can produce. -/
noncomputable def compute_latency_stats (m : NodeMetrics) : NodeMetrics :=
  if m.latency_samples = [] then
    { m with is_alive := false, latency_loss_rate := 1 }
  else
    let sorted_s := List.insertionSort (· ≤ ·) m.latency_samples
    let n := sorted_s.length
    let idx : ℤ := ⌈((95 : ℚ) / 100) * (n : ℚ)⌉ - 1
    { m with
      is_alive := true,
      latency_median := some (pyMedian sorted_s),
      latency_p95 := some (sorted_s.getD (max 0 idx).toNat 0),
      latency_jitter := some (if 1 < n then pyStdev sorted_s else 0) }

/-- The per-node aggregation step at the end of run_latency_tests in
    src/src/tester.py (lines 100-107): `rounds` is the pre-allocated
    result-slot list for this node (length = config.latency_rounds), a
    None slot being a timed-out round.  samples keeps arrival order;
    loss_rate = timeouts / latency_rounds. -/
noncomputable def run_latency_aggregate (rounds : List (Option ℚ))
    (m : NodeMetrics) : NodeMetrics :=
  let samples := rounds.filterMap id
  let timeouts : ℕ := rounds.length - samples.length
  compute_latency_stats
    { m with latency_samples := samples,
             latency_loss_rate := (timeouts : ℚ) / (rounds.length : ℚ) }

/-- AirportMetrics from src/src/metrics.py.  Note: the dataclass has NO
    avg_speed attribute; it has the two per-category fields below, which is
    exactly what src/src/reporter.py's ap.avg_speed access collides with. -/
structure AirportMetrics where
  name : String
  total_nodes : ℕ := 0
  alive_nodes : ℕ := 0
  nodes : List NodeMetrics := []
  alive_rate : ℚ := 0
  median_latency : Option ℚ := none
  p95_latency : Option ℚ := none
  avg_jitter : Option ℝ := none
  avg_speed_intl : Option ℚ := none
  avg_speed_domestic : Option ℚ := none

/-- AirportMetrics.compute_aggregate from src/src/metrics.py.  Each
    `if xs:` guard in the Python only assigns the field when the
    contributing list is non-empty, otherwise the previous value is kept. -/
noncomputable def compute_aggregate (a : AirportMetrics) : AirportMetrics :=
  let alive := a.nodes.filter (·.is_alive)
  let medians := alive.filterMap (·.latency_median)
  let p95s := alive.filterMap (·.latency_p95)
  let jitters := alive.filterMap (·.latency_jitter)
  let intl_speeds := alive.filterMap
    (fun n => if n.speed_intl_blocked then none else n.speed_intl_mbps)
  let dom_speeds := alive.filterMap
    (fun n => if n.speed_domestic_blocked then none else n.speed_domestic_mbps)
  { a with
    alive_nodes := alive.length,
    alive_rate :=
      if a.total_nodes ≠ 0 then (alive.length : ℚ) / (a.total_nodes : ℚ) else 0,
    median_latency :=
      if medians ≠ [] then some (pyMedian medians) else a.median_latency,
    p95_latency :=
      if p95s ≠ [] then some (pyMedian p95s) else a.p95_latency,
    avg_jitter :=
      if jitters ≠ [] then some (pyMeanR jitters) else a.avg_jitter,
    avg_speed_intl :=
      if intl_speeds ≠ [] then some (pyMean intl_speeds) else a.avg_speed_intl,
    avg_speed_domestic :=
      if dom_speeds ≠ [] then some (pyMean dom_speeds)
      else a.avg_speed_domestic }

/-- TestConfig from src/src/tester.py with its dataclass defaults. -/
structure TestConfig where
  latency_url : String := "http://www.gstatic.com/generate_204"
  latency_rounds : ℕ := 10
  latency_timeout_ms : ℕ := 5000
  latency_concurrency : ℕ := 30
  speed_workers : ℕ := 1
  speed_timeout_s : ℕ := 8
  speed_connections : ℕ := 16
  enable_speed : Bool := true
  enable_geo : Bool := true

/-- A TestConfig built with no arguments, i.e. all dataclass defaults. -/
def defaultTestConfig : TestConfig := {}

/-- The default of the --speed-workers CLI flag in src/main.py
    (build_parser); src/main.py always passes it into TestConfig. -/
def mainCliSpeedWorkersDefault : ℕ := 5

/-- The per-node hard watchdog in run_speed_tests (src/src/tester.py line
    147): node_timeout = 10 + config.speed_timeout_s + 20. -/
def nodeWatchdogTimeout (c : TestConfig) : ℕ := 10 + c.speed_timeout_s + 20

/-- _SPEED_URLS from src/src/tester.py: the throughput-URL fallback list,
    tried in order. -/
def _SPEED_URLS : List String :=
  ["https://speed.cloudflare.com/__down?bytes=100000000",
   "http://cachefly.cachefly.net/100mb.test",
   "http://download.thinkbroadband.com/100MB.zip"]

/-- One HTTP response seen by the URL probe: status code and the number of
    body bytes the server will deliver to the first read. -/
structure ProbeResponse where
  status : ℕ
  bodyBytes : ℕ

/-- `await resp.content.read(10240)` in _probe_url: the first read returns
    at most 10240 bytes of the body. -/
def probeFirstRead (r : ProbeResponse) : ℕ := min r.bodyBytes 10240

/-- A URL qualifies for the probe when its response arrives (no transport
    error), the status is 200 or 206, and the first read is ≥ 1024 bytes. -/
def probeQualifies (r : Option ProbeResponse) : Bool :=
  match r with
  | none => false
  | some r =>
    decide (r.status = 200 ∨ r.status = 206) && decide (1024 ≤ probeFirstRead r)

/-- _probe_url from src/src/tester.py: try each URL in order; a transport
    error (`except BaseException: continue`) is modelled as resp url = none;
    a 200/206 response whose first read is ≥ 1 KiB wins; anything else moves
    to the next URL; no qualifying URL yields None. -/
def _probe_url (resp : String → Option ProbeResponse) :
    List String → Option String
  | [] => none
  | url :: rest =>
    match resp url with
    | none => _probe_url resp rest
    | some r =>
      if r.status = 200 ∨ r.status = 206 then
        if 1024 ≤ probeFirstRead r then some url else _probe_url resp rest
      else _probe_url resp rest

/-- The two assignments at the end of _test_node_speed
    (src/src/tester.py lines 187-188):
      m.speed_mbps = mbps; m.speed_blocked = mbps is None.
    These create attributes the NodeMetrics dataclass does not declare,
    hence the outer `some`. -/
def recordSpeed (m : NodeMetrics) (mbps : Option ℚ) : NodeMetrics :=
  { m with speed_mbps := some mbps, speed_blocked := some mbps.isNone }

/-- Outcome of one node's speed test inside a worker, as observed at the
    `asyncio.wait_for(..., timeout=node_timeout)` call in run_speed_tests:
    either _test_node_speed completed (returning the measured Mbps and the
    URL to cache), or the per-node watchdog expired and the coroutine was
    cancelled before its two assignments ran. -/
inductive SpeedOutcome where
  | completed (mbps : Option ℚ) (used : Option String)
  | watchdogExpired

/-- Worker-visible state of the speed phase: the shared metrics map, the
    per-worker cached URL, and the number of progress_cb(1) calls made. -/
structure SpeedPhaseState where
  metricsOf : String → NodeMetrics
  cachedUrl : Option String := none
  progress : ℕ := 0

/-- One iteration of the worker loop in run_speed_tests for the dequeued
    node `name`: on completion the metrics entry is updated by
    recordSpeed and cached_url is replaced by the returned URL; on watchdog
    expiry the `except asyncio.TimeoutError: pass` arm runs, so neither the
    metrics entry nor cached_url changes.  The `finally` arm advances the
    progress callback by 1 in every case. -/
def workerStep (outcome : String → SpeedOutcome) (s : SpeedPhaseState)
    (name : String) : SpeedPhaseState :=
  match outcome name with
  | .completed mbps used =>
    { s with
      metricsOf := fun k =>
        if k = name then recordSpeed (s.metricsOf name) mbps else s.metricsOf k,
      cachedUrl := used,
      progress := s.progress + 1 }
  | .watchdogExpired => { s with progress := s.progress + 1 }

/-- A worker consuming its share of the queue until the sentinel:
    the loop body of run_speed_tests applied to each assigned node. -/
def workerRun (outcome : String → SpeedOutcome) (s : SpeedPhaseState)
    (names : List String) : SpeedPhaseState :=
  names.foldl (workerStep outcome) s

/-- The state of the mihomo router relevant to request routing: the proxy
    currently selected in the test-group select group.  Modelled from the
    spec, section 6: the generated config routes every request
    (rule MATCH,test-group) through the selected member of test-group. -/
structure Router where
  selected : String

/-- MihomoInstance.select_node (src/src/mihomo_manager.py): PUT
    /proxies/test-group switches the active proxy. -/
def select_node (r : Router) (name : String) : Router := { r with selected := name }

/-- The ip-api.com JSON payload fields requested by _GEO_URL in
    src/src/geo.py. -/
structure GeoData where
  status : String
  country : String
  countryCode : String
  city : String
  isp : String
  query : String

/-- The geolocation environment: what ip-api.com answers when reached
    through a given exit proxy (the HTTP status of the response and its
    payload).  A SOCKS5 request through the router is served by the proxy
    currently selected in test-group, so both are indexed by that proxy's
    name. -/
structure GeoEnv where
  httpStatus : String → ℕ
  payload : String → GeoData

/-- fetch_one inside fetch_geolocation (src/src/geo.py): skip nodes that
    are not alive or have no socks5 URL; otherwise fetch _GEO_URL through
    the router's SOCKS5 port — which the router serves via its currently
    selected proxy — and, on HTTP 200 with payload status "success", copy
    query/countryCode/city/isp into the metrics.  Note that the routine
    never switches the router's selection. -/
def fetch_one (env : GeoEnv) (r : Router) (hasSocks : String → Bool)
    (m : NodeMetrics) : NodeMetrics :=
  if m.is_alive = false then m
  else if hasSocks m.node_name = false then m
  else if env.httpStatus r.selected = 200 ∧
      (env.payload r.selected).status = "success" then
    { m with
      exit_ip := some (env.payload r.selected).query,
      exit_country := some (env.payload r.selected).countryCode,
      exit_city := some (env.payload r.selected).city,
      exit_isp := some (env.payload r.selected).isp }
  else m

/-- fetch_geolocation (src/src/geo.py): every node is processed by
    fetch_one; the requests are serialised by the rate-limiting semaphore,
    and the router state r is never modified between them (geo.py contains
    no select_node call). -/
def fetch_geolocation (env : GeoEnv) (r : Router) (hasSocks : String → Bool)
    (ms : List NodeMetrics) : List NodeMetrics :=
  ms.map (fetch_one env r hasSocks)

/-- A node record from src/src/dedup.py's point of view: the "name" entry
    of the proxy dict plus all remaining key/value entries (opaque here). -/
structure NodeRec where
  name : String
  rest : List (String × String)

instance : Inhabited NodeRec := ⟨⟨"", []⟩⟩

/-- Little-endian decimal digits with explicit fuel (fuel ≥ n makes it
    total); mirrors the digits Python's str(int) prints. -/
def decDigitsAux : ℕ → ℕ → List ℕ
  | _, 0 => []
  | 0, _ + 1 => []
  | fuel + 1, n + 1 => (n + 1) % 10 :: decDigitsAux fuel ((n + 1) / 10)

/-- Little-endian decimal digits of n. -/
def decDigits (n : ℕ) : List ℕ := decDigitsAux n n

/-- The character for one decimal digit. -/
def digitChar (d : ℕ) : Char := Char.ofNat (48 + d)

/-- Python's str(n) for a natural number: its decimal numeral. -/
def natStr (n : ℕ) : String :=
  if n = 0 then "0" else String.mk ((decDigits n).reverse.map digitChar)

/-- The f-string f"{name} ({k})" in deduplicate_names. -/
def renameDup (name : String) (k : ℕ) : String :=
  name ++ " (" ++ natStr k ++ ")"

/-- The loop of deduplicate_names (src/src/dedup.py) with the `seen` dict
    modelled as an occurrence-count function (0 = not yet seen).  A first
    occurrence is copied unchanged and registered with count 1; a repeat
    bumps the count to c+1 and is renamed to f"{name} ({c+1})". -/
def dedupGo (seen : String → ℕ) : List NodeRec → List NodeRec
  | [] => []
  | node :: rest =>
    let c := seen node.name
    if c = 0 then
      node :: dedupGo (fun x => if x = node.name then 1 else seen x) rest
    else
      { node with name := renameDup node.name (c + 1) } ::
        dedupGo (fun x => if x = node.name then c + 1 else seen x) rest

/-- deduplicate_names from src/src/dedup.py. -/
def deduplicate_names (nodes : List NodeRec) : List NodeRec :=
  dedupGo (fun _ => 0) nodes

/-- Name-level recursion of deduplicate_names, carrying the already
    processed prefix instead of the count function; used to characterise
    dedupGo (the count function applied by dedupGo is exactly
    "count in the processed prefix"). -/
def dedupNames (pre : List String) : List String → List String
  | [] => []
  | nm :: rest =>
    (if pre.count nm = 0 then nm else renameDup nm (pre.count nm + 1)) ::
      dedupNames (pre ++ [nm]) rest

/-- A concrete node as the Speed phase leaves it: alive after one good
    latency round, then recordSpeed with a measured 50 Mbps. -/
noncomputable def c1_node : NodeMetrics :=
  recordSpeed (run_latency_aggregate [some 50] (mkNodeMetrics "n1" "ss" "srv" 443 "ap"))
    (some 50)

/-- The airport holding c1_node, as built in src/main.py before
    compute_aggregate runs. -/
noncomputable def c1_airport : AirportMetrics :=
  { name := "ap", total_nodes := 1, nodes := [c1_node] }

/-- A geolocation environment in which every exit proxy answers HTTP 200 /
    "success" and reports a distinct exit IP per proxy ("A" owns 1.1.1.1,
    every other proxy 2.2.2.2). -/
def c2_env : GeoEnv :=
  { httpStatus := fun _ => 200,
    payload := fun s =>
      { status := "success", country := s, countryCode := s, city := s, isp := s,
        query := if s = "A" then "1.1.1.1" else "2.2.2.2" } }

/-- Two alive nodes A and B entering the Geolocation phase. -/
noncomputable def c2_nodes : List NodeMetrics :=
  [run_latency_aggregate [some 10] (mkNodeMetrics "A" "ss" "sa" 1 "ap"),
   run_latency_aggregate [some 10] (mkNodeMetrics "B" "ss" "sb" 2 "ap")]

/-- Speed-phase state holding one alive node X, before any speed test. -/
noncomputable def c3_state : SpeedPhaseState :=
  { metricsOf := fun _ =>
      run_latency_aggregate [some 40] (mkNodeMetrics "X" "ss" "srv" 1 "ap"),
    cachedUrl := none, progress := 0 }

/-- A speed-test oracle under which every node's watchdog expires. -/
def c3_outcome : String → SpeedOutcome := fun _ => SpeedOutcome.watchdogExpired

lemma ofDigits_decDigitsAux (fuel : ℕ) : ∀ n : ℕ, n ≤ fuel →
    Nat.ofDigits 10 (decDigitsAux fuel n) = n := by
  induction fuel with
  | zero =>
    intro n hn
    interval_cases n
    simp [decDigitsAux]
  | succ fuel ih =>
    intro n hn
    cases n with
    | zero => simp [decDigitsAux]
    | succ m =>
      have hdiv : (m + 1) / 10 ≤ fuel := by
        have := Nat.div_lt_self (Nat.succ_pos m) (by norm_num : 1 < 10)
        omega
      rw [decDigitsAux, Nat.ofDigits_cons, ih _ hdiv]
      omega

lemma decDigits_inj {m n : ℕ} (h : decDigits m = decDigits n) : m = n := by
  have hm := ofDigits_decDigitsAux m m le_rfl
  have hn := ofDigits_decDigitsAux n n le_rfl
  rw [decDigits, decDigits] at h
  rw [← hm, ← hn, h]

lemma decDigitsAux_lt_ten (fuel : ℕ) : ∀ n : ℕ, ∀ d ∈ decDigitsAux fuel n, d < 10 := by
  induction fuel with
  | zero =>
    intro n d hd
    cases n <;> simp [decDigitsAux] at hd
  | succ fuel ih =>
    intro n d hd
    cases n with
    | zero => simp [decDigitsAux] at hd
    | succ m =>
      rw [decDigitsAux, List.mem_cons] at hd
      rcases hd with rfl | hd
      · omega
      · exact ih _ d hd

lemma digitChar_inj_lt : ∀ d < 10, ∀ e < 10, digitChar d = digitChar e → d = e := by
  decide

lemma map_digitChar_inj : ∀ l1 l2 : List ℕ, (∀ d ∈ l1, d < 10) → (∀ d ∈ l2, d < 10) →
    l1.map digitChar = l2.map digitChar → l1 = l2 := by
  intro l1
  induction l1 with
  | nil =>
    intro l2 _ _ h
    cases l2 with
    | nil => rfl
    | cons b t2 => simp at h
  | cons a t ih =>
    intro l2 h1 h2 h
    cases l2 with
    | nil => simp at h
    | cons b t2 =>
      simp only [List.map_cons, List.cons.injEq] at h
      have hab : a = b :=
        digitChar_inj_lt a (h1 a (by simp)) b (h2 b (by simp)) h.1
      have ht : t = t2 :=
        ih t2 (fun d hd => h1 d (by simp [hd])) (fun d hd => h2 d (by simp [hd])) h.2
      rw [hab, ht]

lemma natStr_inj {m n : ℕ} (hm : m ≠ 0) (hn : n ≠ 0) (h : natStr m = natStr n) :
    m = n := by
  rw [natStr, natStr, if_neg hm, if_neg hn] at h
  injection h with hdata
  have hrev := map_digitChar_inj _ _
    (fun d hd => decDigitsAux_lt_ten m m d (List.mem_reverse.mp hd))
    (fun d hd => decDigitsAux_lt_ten n n d (List.mem_reverse.mp hd)) hdata
  exact decDigits_inj (List.reverse_injective hrev)

lemma sepInfix_cons {l x : List Char} {a : Char}
    (h : List.IsInfix l x) : List.IsInfix l (a :: x) := by
  obtain ⟨s, t, hst⟩ := h
  exact ⟨a :: s, t, by rw [← hst]; simp⟩

lemma encInj : ∀ x y dx dy : List Char,
    ¬ List.IsInfix [' ', '('] x → ¬ List.IsInfix [' ', '('] y →
    x ++ ' ' :: '(' :: (dx ++ [')']) = y ++ ' ' :: '(' :: (dy ++ [')']) →
    x = y ∧ dx = dy := by
  intro x
  induction x with
  | nil =>
    intro y dx dy _ hy h
    cases y with
    | nil =>
      simp only [List.nil_append, List.cons.injEq] at h
      exact ⟨rfl, by
        have := h.2.2
        exact List.append_left_inj [')'] |>.mp this⟩
    | cons b y' =>
      simp only [List.nil_append, List.cons_append, List.cons.injEq] at h
      obtain ⟨hb, h2⟩ := h
      cases y' with
      | nil =>
        simp only [List.nil_append, List.cons.injEq] at h2
        exact absurd h2.1 (by decide)
      | cons c y'' =>
        simp only [List.cons_append, List.cons.injEq] at h2
        exact absurd ⟨[], y'', by simp [← hb, ← h2.1]⟩ hy
  | cons a x' ih =>
    intro y dx dy hx hy h
    cases y with
    | nil =>
      simp only [List.nil_append, List.cons_append, List.cons.injEq] at h
      obtain ⟨hb, h2⟩ := h
      cases x' with
      | nil =>
        simp only [List.nil_append, List.cons.injEq] at h2
        exact absurd h2.1 (by decide)
      | cons c x'' =>
        simp only [List.cons_append, List.cons.injEq] at h2
        exact absurd ⟨[], x'', by simp [hb, h2.1]⟩ hx
    | cons b y' =>
      simp only [List.cons_append, List.cons.injEq] at h
      obtain ⟨hab, htail⟩ := h
      obtain ⟨h1, h2⟩ := ih y' dx dy
        (fun hin => hx (sepInfix_cons hin)) (fun hin => hy (sepInfix_cons hin)) htail
      exact ⟨by rw [hab, h1], h2⟩

lemma stringDataInj {s t : String} (h : s.data = t.data) : s = t := by
  cases s
  cases t
  exact congrArg String.mk h

lemma renameDup_data (nm : String) (k : ℕ) :
    (renameDup nm k).data = nm.data ++ ' ' :: '(' :: ((natStr k).data ++ [')']) := by
  simp [renameDup, String.data_append]

lemma renameDup_contains_sep (nm : String) (k : ℕ) :
    List.IsInfix [' ', '('] (renameDup nm k).data :=
  ⟨nm.data, (natStr k).data ++ [')'], by rw [renameDup_data]; simp⟩

lemma renameDup_ne_plain {y : String} (nm : String) (k : ℕ)
    (hy : ¬ List.IsInfix [' ', '('] y.data) : y ≠ renameDup nm k := by
  intro he
  exact hy (he ▸ renameDup_contains_sep nm k)

lemma renameDup_inj {nm1 nm2 : String} {k1 k2 : ℕ}
    (h1 : ¬ List.IsInfix [' ', '('] nm1.data)
    (h2 : ¬ List.IsInfix [' ', '('] nm2.data)
    (hk1 : k1 ≠ 0) (hk2 : k2 ≠ 0)
    (h : renameDup nm1 k1 = renameDup nm2 k2) : nm1 = nm2 ∧ k1 = k2 := by
  have hd := congrArg String.data h
  rw [renameDup_data, renameDup_data] at hd
  obtain ⟨hx, hdig⟩ := encInj _ _ _ _ h1 h2 hd
  have hstr : natStr k1 = natStr k2 := stringDataInj hdig
  exact ⟨stringDataInj hx, natStr_inj hk1 hk2 hstr⟩

lemma dedupGo_names (nodes : List NodeRec) : ∀ pre : List String,
    (dedupGo (fun x => pre.count x) nodes).map NodeRec.name
      = dedupNames pre (nodes.map NodeRec.name) := by
  induction nodes with
  | nil => intro pre; rfl
  | cons node rest ih =>
    intro pre
    simp only [dedupGo, dedupNames, List.map_cons]
    by_cases hc : pre.count node.name = 0
    · rw [if_pos hc, if_pos hc]
      simp only [List.map_cons]
      congr 1
      have harg : (fun x => if x = node.name then 1 else pre.count x)
          = (fun x => (pre ++ [node.name]).count x) := by
        funext x
        by_cases hx : x = node.name
        · subst hx
          simp [List.count_append, hc]
        · simp [List.count_append, List.count_cons, hx]
      rw [harg, ih]
    · rw [if_neg hc, if_neg hc]
      simp only [List.map_cons]
      congr 1
      have harg : (fun x => if x = node.name then pre.count node.name + 1 else pre.count x)
          = (fun x => (pre ++ [node.name]).count x) := by
        funext x
        by_cases hx : x = node.name
        · subst hx
          simp [List.count_append]
        · simp [List.count_append, List.count_cons, hx]
      rw [harg, ih]

lemma dedupGo_rests (nodes : List NodeRec) : ∀ seen : String → ℕ,
    (dedupGo seen nodes).map NodeRec.rest = nodes.map NodeRec.rest := by
  induction nodes with
  | nil => intro seen; rfl
  | cons node rest ih =>
    intro seen
    simp only [dedupGo]
    by_cases hc : seen node.name = 0
    · rw [if_pos hc]
      simp only [List.map_cons, ih]
    · rw [if_neg hc]
      simp only [List.map_cons, ih]

lemma dedupNames_length : ∀ (names pre : List String),
    (dedupNames pre names).length = names.length := by
  intro names
  induction names with
  | nil => intro pre; rfl
  | cons nm rest ih =>
    intro pre
    simp only [dedupNames, List.length_cons, ih]

lemma dedupNames_getElem? : ∀ (names pre : List String) (i : ℕ), i < names.length →
    (dedupNames pre names)[i]? = some
      (if (pre ++ names.take (i + 1)).count (names.getD i "") = 1
       then names.getD i ""
       else renameDup (names.getD i "")
         ((pre ++ names.take (i + 1)).count (names.getD i ""))) := by
  intro names
  induction names with
  | nil =>
    intro pre i hi
    simp at hi
  | cons nm rest ih =>
    intro pre i hi
    cases i with
    | zero =>
      simp only [dedupNames, List.getElem?_cons_zero, List.getD_cons_zero,
        List.take_succ_cons, List.take_zero]
      have hcount : (pre ++ [nm]).count nm = pre.count nm + 1 := by
        simp [List.count_append]
      rw [hcount]
      by_cases hc : pre.count nm = 0
      · rw [if_pos hc, if_pos (show pre.count nm + 1 = 1 by omega)]
      · rw [if_neg hc, if_neg (show ¬ pre.count nm + 1 = 1 by omega)]
    | succ j =>
      have hj : j < rest.length := by simpa using hi
      simp only [dedupNames, List.getElem?_cons_succ]
      rw [ih (pre ++ [nm]) j hj]
      have htake : pre ++ (nm :: rest).take (j + 1 + 1)
          = (pre ++ [nm]) ++ rest.take (j + 1) := by
        simp [List.take_succ_cons]
      rw [htake, List.getD_cons_succ]

lemma dedupNames_nodup (names : List String)
    (H : ∀ nm ∈ names, ¬ List.IsInfix [' ', '('] nm.data) :
    (dedupNames [] names).Pairwise (· ≠ ·) := by
  rw [List.pairwise_iff_getElem]
  intro i j hi hj hij
  have hlen := dedupNames_length names []
  have hi' : i < names.length := by omega
  have hj' : j < names.length := by omega
  have ei := dedupNames_getElem? names [] i hi'
  have ej := dedupNames_getElem? names [] j hj'
  rw [List.getElem?_eq_getElem hi, List.nil_append,
    List.getD_eq_getElem names "" hi', Option.some.injEq] at ei
  rw [List.getElem?_eq_getElem hj, List.nil_append,
    List.getD_eq_getElem names "" hj', Option.some.injEq] at ej
  have hmi : names[i] ∈ names := List.getElem_mem hi'
  have hmj : names[j] ∈ names := List.getElem_mem hj'
  have hti : names.take (i + 1) = names.take i ++ [names[i]] := by
    rw [List.take_succ, List.getElem?_eq_getElem hi']
    rfl
  have htj : names.take (j + 1) = names.take j ++ [names[j]] := by
    rw [List.take_succ, List.getElem?_eq_getElem hj']
    rfl
  have hci : (names.take (i + 1)).count names[i]
      = (names.take i).count names[i] + 1 := by
    rw [hti, List.count_append]
    simp [List.count_cons_self]
  have hcj : (names.take (j + 1)).count names[j]
      = (names.take j).count names[j] + 1 := by
    rw [htj, List.count_append]
    simp [List.count_cons_self]
  have hmono : names[i] = names[j] →
      (names.take (i + 1)).count names[i] < (names.take (j + 1)).count names[j] := by
    intro hnm
    have hpre : names.take (i + 1) <+: names.take j := by
      have : (names.take j).take (i + 1) = names.take (i + 1) := by
        rw [List.take_take]
        congr 1
        omega
      rw [← this]
      exact List.take_prefix _ _
    have hle : (names.take (i + 1)).count names[i]
        ≤ (names.take j).count names[i] := hpre.sublist.count_le _
    rw [hcj, ← hnm]
    omega
  intro heq
  rw [ei, ej] at heq
  by_cases bi : (names.take (i + 1)).count names[i] = 1 <;>
    by_cases bj : (names.take (j + 1)).count names[j] = 1
  · rw [if_pos bi, if_pos bj] at heq
    have := hmono heq
    omega
  · rw [if_pos bi, if_neg bj] at heq
    exact renameDup_ne_plain names[j] _ (H names[i] hmi) heq
  · rw [if_neg bi, if_pos bj] at heq
    exact renameDup_ne_plain names[i] _ (H names[j] hmj) heq.symm
  · rw [if_neg bi, if_neg bj] at heq
    obtain ⟨hnm, hcc⟩ := renameDup_inj (H names[i] hmi) (H names[j] hmj)
      (by omega) (by omega) heq
    have := hmono hnm
    omega


/-- Claim C1 (code bug): after the Speed phase has recorded a 50 Mbps
    non-blocked measurement on an alive node (dynamic attributes
    speed_mbps / speed_blocked), compute_aggregate still produces no speed
    roll-up: it only reads speed_intl_mbps / speed_domestic_mbps, which the
    Speed phase never writes, and the AirportMetrics dataclass has no
    avg_speed attribute at all, so both per-category averages stay None
    while the claimed mean of the contributing set is 50. -/
theorem C1_avg_speed_never_aggregated :
    c1_node.is_alive = true ∧
    c1_node.speed_mbps = some (some 50) ∧
    c1_node.speed_blocked = some false ∧
    (compute_aggregate c1_airport).avg_speed_intl = none ∧
    (compute_aggregate c1_airport).avg_speed_domestic = none ∧
    pyMean [(50 : ℚ)] = 50 := by
  refine ⟨by decide, by decide, by decide, ?_, ?_, by norm_num [pyMean]⟩ <;>
    simp [compute_aggregate, c1_airport, c1_node, recordSpeed, run_latency_aggregate,
      compute_latency_stats, mkNodeMetrics, List.filterMap]

/-- Claim C2 (code bug): fetch_geolocation never calls select_node, so with
    two alive nodes A and B reached through one shared router whose active
    proxy is A, both nodes get A's exit IP 1.1.1.1, although B's own exit
    would answer 2.2.2.2 — the fetched metadata is not attributed to the
    node it is stored on. -/
theorem C2_geo_never_switches_proxy :
    ((fetch_geolocation c2_env { selected := "A" } (fun _ => true) c2_nodes).map
        (·.exit_ip)) = [some "1.1.1.1", some "1.1.1.1"] ∧
    (c2_env.payload "B").query = "2.2.2.2" ∧
    ("1.1.1.1" : String) ≠ "2.2.2.2" := by
  refine ⟨?_, by decide, by decide⟩
  simp [fetch_geolocation, fetch_one, c2_env, c2_nodes, run_latency_aggregate,
    compute_latency_stats, mkNodeMetrics, List.filterMap]

/-- Claim C3 (code bug): the per-node watchdog is 10 + speed_timeout_s + 20
    seconds and on expiry the worker advances the progress callback and
    continues, but the `except asyncio.TimeoutError: pass` arm records
    nothing: the node keeps neither a speed_mbps nor a speed_blocked
    attribute (in particular speed_blocked = true is NOT recorded). -/
theorem C3_watchdog_expiry_records_nothing :
    nodeWatchdogTimeout defaultTestConfig = 10 + 8 + 20 ∧
    (workerRun c3_outcome c3_state ["X"]).progress = 1 ∧
    ((workerRun c3_outcome c3_state ["X"]).metricsOf "X").is_alive = true ∧
    ((workerRun c3_outcome c3_state ["X"]).metricsOf "X").speed_mbps = none ∧
    ((workerRun c3_outcome c3_state ["X"]).metricsOf "X").speed_blocked = none ∧
    ((workerRun c3_outcome c3_state ["X"]).metricsOf "X").speed_blocked ≠ some true := by
  refine ⟨rfl, rfl, ?_, ?_, ?_, ?_⟩ <;>
    simp [workerRun, workerStep, c3_outcome, c3_state, run_latency_aggregate,
      compute_latency_stats, mkNodeMetrics, List.filterMap]

/-- Claim C4, counterexample: the TestConfig dataclass defaults are not
    speed_workers = 5 and speed_timeout_s = 10. -/
theorem C4_spec_defaults_false :
    ¬ (defaultTestConfig.speed_workers = 5 ∧ defaultTestConfig.speed_timeout_s = 10) := by
  decide

/-- Claim C4 as amended: the engine's TestConfig defaults are
    speed_workers = 1 (the --speed-workers CLI flag defaults to 5 and
    overrides it when run through src/main.py), speed_timeout_s = 8,
    speed_connections = 16, latency_rounds = 10, latency_concurrency = 30. -/
theorem C4_actual_config_defaults :
    defaultTestConfig.speed_workers = 1 ∧
    defaultTestConfig.speed_timeout_s = 8 ∧
    defaultTestConfig.speed_connections = 16 ∧
    defaultTestConfig.latency_rounds = 10 ∧
    defaultTestConfig.latency_concurrency = 30 ∧
    mainCliSpeedWorkersDefault = 5 := by
  decide

/-- Claim C5: after the Latency phase, is_alive holds iff latency_samples
    is non-empty; a node with no samples keeps latency_median, latency_p95
    and latency_jitter at None and has latency_loss_rate = 1; a node with
    samples is alive with all three statistics computed. -/
theorem C5_alive_iff_samples_nonempty (rounds : List (Option ℚ))
    (nm ty sv : String) (pt : ℤ) (src : String) :
    (((run_latency_aggregate rounds (mkNodeMetrics nm ty sv pt src)).is_alive = true) ↔
      (run_latency_aggregate rounds (mkNodeMetrics nm ty sv pt src)).latency_samples ≠ []) ∧
    ((run_latency_aggregate rounds (mkNodeMetrics nm ty sv pt src)).latency_samples = [] →
      (run_latency_aggregate rounds (mkNodeMetrics nm ty sv pt src)).is_alive = false ∧
      (run_latency_aggregate rounds (mkNodeMetrics nm ty sv pt src)).latency_median = none ∧
      (run_latency_aggregate rounds (mkNodeMetrics nm ty sv pt src)).latency_p95 = none ∧
      (run_latency_aggregate rounds (mkNodeMetrics nm ty sv pt src)).latency_jitter = none ∧
      (run_latency_aggregate rounds (mkNodeMetrics nm ty sv pt src)).latency_loss_rate = 1) ∧
    ((run_latency_aggregate rounds (mkNodeMetrics nm ty sv pt src)).latency_samples ≠ [] →
      (run_latency_aggregate rounds (mkNodeMetrics nm ty sv pt src)).is_alive = true ∧
      (run_latency_aggregate rounds (mkNodeMetrics nm ty sv pt src)).latency_median.isSome ∧
      (run_latency_aggregate rounds (mkNodeMetrics nm ty sv pt src)).latency_p95.isSome ∧
      (run_latency_aggregate rounds (mkNodeMetrics nm ty sv pt src)).latency_jitter.isSome) := by
  by_cases hs : rounds.filterMap id = []
  · simp [run_latency_aggregate, compute_latency_stats, hs, mkNodeMetrics]
  · simp only [run_latency_aggregate, compute_latency_stats, mkNodeMetrics]
    rw [if_neg hs]
    simp [hs]

/-- Witness for C5: concrete all-timeout round list gives a dead node with
    null statistics and loss rate 1; a single good round gives an alive
    node. -/
theorem C5_alive_iff_samples_nonempty_witness :
    ((run_latency_aggregate [none] (mkNodeMetrics "A" "ss" "h" 1 "s")).is_alive = false ∧
     (run_latency_aggregate [none] (mkNodeMetrics "A" "ss" "h" 1 "s")).latency_median = none ∧
     (run_latency_aggregate [none] (mkNodeMetrics "A" "ss" "h" 1 "s")).latency_p95 = none ∧
     (run_latency_aggregate [none] (mkNodeMetrics "A" "ss" "h" 1 "s")).latency_jitter = none ∧
     (run_latency_aggregate [none] (mkNodeMetrics "A" "ss" "h" 1 "s")).latency_loss_rate = 1) ∧
    (run_latency_aggregate [some 50] (mkNodeMetrics "A" "ss" "h" 1 "s")).is_alive = true :=
  ⟨by
    have h := (C5_alive_iff_samples_nonempty [none] "A" "ss" "h" 1 "s").2.1 (by decide)
    exact ⟨h.1, h.2.1, h.2.2.1, h.2.2.2.1, h.2.2.2.2⟩,
   (C5_alive_iff_samples_nonempty [some 50] "A" "ss" "h" 1 "s").1.mpr (by decide)⟩

/-- Claim C6: for every node with non-empty samples, latency_p95 is the
    sorted sample at index max(0, ceil(0.95 n) - 1); on the 20-sample
    input 1..20 the P95 is 19 (index 18); on any 2-sample input the P95 is
    the larger sample (index 1). -/
theorem C6_p95_nearest_rank :
    (∀ m : NodeMetrics, m.latency_samples ≠ [] →
      (compute_latency_stats m).latency_p95 =
        some ((List.insertionSort (· ≤ ·) m.latency_samples).getD
          (max 0 (⌈((95 : ℚ) / 100) * (m.latency_samples.length : ℚ)⌉ - 1)).toNat 0)) ∧
    ((run_latency_aggregate
        [some 1, some 2, some 3, some 4, some 5, some 6, some 7, some 8, some 9,
         some 10, some 11, some 12, some 13, some 14, some 15, some 16, some 17,
         some 18, some 19, some 20]
        (mkNodeMetrics "A" "ss" "h" 1 "s")).latency_p95 = some 19) ∧
    (∀ a b : ℚ,
      (compute_latency_stats
        { mkNodeMetrics "A" "ss" "h" 1 "s" with latency_samples := [a, b] }).latency_p95 =
        some (max a b)) := by
  refine ⟨?_, ?_, ?_⟩
  · intro m hm
    simp only [compute_latency_stats]
    rw [if_neg hm]
    simp [List.length_insertionSort]
  · norm_num [run_latency_aggregate, compute_latency_stats, mkNodeMetrics, List.filterMap,
      List.insertionSort, List.orderedInsert, List.cons_ne_nil, List.getD]
    decide
  · intro a b
    have hc : (⌈((95 : ℚ) / 100) * (2 : ℚ)⌉ : ℤ) = 2 := by
      rw [Int.ceil_eq_iff]
      norm_num
    by_cases hab : a ≤ b
    · simp [compute_latency_stats, mkNodeMetrics, List.insertionSort, List.orderedInsert,
        hab, hc, List.getD, max_eq_right hab]
    · simp [compute_latency_stats, mkNodeMetrics, List.insertionSort, List.orderedInsert,
        hab, hc, List.getD, max_eq_left (le_of_not_le hab)]

/-- Witness for C6: on the concrete sample list [3, 1, 2] the nearest-rank
    formula yields P95 = 3. -/
theorem C6_p95_nearest_rank_witness :
    ([(3 : ℚ), 1, 2] ≠ []) ∧
    (compute_latency_stats
      { mkNodeMetrics "A" "ss" "h" 1 "s" with latency_samples := [3, 1, 2] }).latency_p95
        = some 3 := by
  refine ⟨by decide, ?_⟩
  have h := C6_p95_nearest_rank.1
    { mkNodeMetrics "A" "ss" "h" 1 "s" with latency_samples := [3, 1, 2] } (by decide)
  rw [h]
  have hc : (⌈(57 : ℚ) / 20⌉ : ℤ) = 3 := by
    rw [Int.ceil_eq_iff]
    norm_num
  norm_num [List.insertionSort, List.orderedInsert, List.getD, hc]
  decide

/-- Claim C7: after the Latency phase with R result slots (R > 0), the
    loss rate is (R - |samples|) / R, and |samples| + round(loss · R) = R. -/
theorem C7_loss_rate_roundtrip (rounds : List (Option ℚ))
    (nm ty sv : String) (pt : ℤ) (src : String) (h : 0 < rounds.length) :
    (run_latency_aggregate rounds (mkNodeMetrics nm ty sv pt src)).latency_loss_rate =
      ((rounds.length : ℚ) -
        (((run_latency_aggregate rounds
            (mkNodeMetrics nm ty sv pt src)).latency_samples.length : ℚ))) /
        (rounds.length : ℚ) ∧
    (((run_latency_aggregate rounds
        (mkNodeMetrics nm ty sv pt src)).latency_samples.length : ℤ)) +
      round ((run_latency_aggregate rounds
          (mkNodeMetrics nm ty sv pt src)).latency_loss_rate *
        (rounds.length : ℚ)) = (rounds.length : ℤ) := by
  have hsle : (rounds.filterMap id).length ≤ rounds.length :=
    List.length_filterMap_le id rounds
  have hR : ((rounds.length : ℚ)) ≠ 0 := by positivity
  by_cases hs : rounds.filterMap id = []
  · refine ⟨?_, ?_⟩
    · simp [run_latency_aggregate, compute_latency_stats, hs, div_self hR]
    · simp [run_latency_aggregate, compute_latency_stats, hs, round_natCast]
  · refine ⟨?_, ?_⟩
    · simp only [run_latency_aggregate, compute_latency_stats]
      rw [if_neg hs]
      push_cast [Nat.cast_sub hsle]
      ring
    · simp only [run_latency_aggregate, compute_latency_stats]
      rw [if_neg hs]
      simp only
      rw [div_mul_cancel₀ _ hR, round_natCast]
      push_cast [Nat.cast_sub hsle]
      ring

/-- Witness for C7: with slots [some 5, none], loss = 1/2 and
    1 + round(1/2 · 2) = 2. -/
theorem C7_loss_rate_roundtrip_witness :
    0 < ([some (5 : ℚ), none] : List (Option ℚ)).length ∧
    ((run_latency_aggregate [some (5 : ℚ), none]
        (mkNodeMetrics "A" "ss" "h" 1 "s")).latency_loss_rate =
      ((([some (5 : ℚ), none] : List (Option ℚ)).length : ℚ) -
        ((run_latency_aggregate [some (5 : ℚ), none]
          (mkNodeMetrics "A" "ss" "h" 1 "s")).latency_samples.length : ℚ)) /
        (([some (5 : ℚ), none] : List (Option ℚ)).length : ℚ) ∧
     ((run_latency_aggregate [some (5 : ℚ), none]
        (mkNodeMetrics "A" "ss" "h" 1 "s")).latency_samples.length : ℤ) +
      round ((run_latency_aggregate [some (5 : ℚ), none]
        (mkNodeMetrics "A" "ss" "h" 1 "s")).latency_loss_rate *
          (([some (5 : ℚ), none] : List (Option ℚ)).length : ℚ)) =
      (([some (5 : ℚ), none] : List (Option ℚ)).length : ℤ)) :=
  ⟨by decide, C7_loss_rate_roundtrip [some (5 : ℚ), none] "A" "ss" "h" 1 "s" (by decide)⟩

/-- Claim C8: _SPEED_URLS is exactly the Cloudflare, Cachefly,
    ThinkBroadband list in that order; _probe_url returns the first URL
    whose response qualifies (status 200 or 206 and first read ≥ 1 KiB) and
    None when none qualifies; a 200-status 500-byte first candidate is
    skipped in favour of a 4 KiB second candidate. -/
theorem C8_probe_first_qualifying_url :
    (_SPEED_URLS =
      ["https://speed.cloudflare.com/__down?bytes=100000000",
       "http://cachefly.cachefly.net/100mb.test",
       "http://download.thinkbroadband.com/100MB.zip"]) ∧
    (∀ (resp : String → Option ProbeResponse) (urls : List String),
      _probe_url resp urls = urls.find? (fun u => probeQualifies (resp u))) ∧
    (_probe_url
        (fun u =>
          if u = "https://speed.cloudflare.com/__down?bytes=100000000" then
            some { status := 200, bodyBytes := 500 }
          else if u = "http://cachefly.cachefly.net/100mb.test" then
            some { status := 200, bodyBytes := 4096 }
          else none)
        _SPEED_URLS = some "http://cachefly.cachefly.net/100mb.test") ∧
    (_probe_url (fun _ => some { status := 200, bodyBytes := 500 }) _SPEED_URLS = none) := by
  refine ⟨rfl, ?_, by decide, by decide⟩
  intro resp urls
  induction urls with
  | nil => rfl
  | cons u rest ih =>
    simp only [_probe_url, List.find?]
    cases hr : resp u with
    | none => simp [probeQualifies, hr, ih]
    | some r =>
      by_cases h1 : r.status = 200 ∨ r.status = 206
      · by_cases h2 : 1024 ≤ probeFirstRead r
        · simp [probeQualifies, hr, h1, h2]
        · simp [probeQualifies, hr, h1, h2, ih]
      · simp [probeQualifies, hr, h1, ih]

/-- Claim C9: compute_aggregate is idempotent — running it a second time
    on an airport with an unchanged node list reproduces every roll-up
    field exactly. -/
theorem C9_compute_aggregate_idempotent (a : AirportMetrics) :
    compute_aggregate (compute_aggregate a) = compute_aggregate a := by
  simp only [compute_aggregate]
  split_ifs <;> rfl
/-- Claim C10 as amended: deduplicate_names keeps order, length and all
    non-name fields, renames the k-th repeat occurrence of a name by
    appending " (k+1)" while a first occurrence keeps its name, and —
    provided no input name already contains the substring " (" — the
    resulting names are pairwise distinct.  (Without that restriction a
    renamed duplicate can collide with a literal input name, see the
    counterexample.) -/
theorem C10_dedup_unique_names (nodes : List NodeRec)
    (H : ∀ n ∈ nodes, ¬ List.IsInfix [' ', '('] n.name.data) :
    ((deduplicate_names nodes).map NodeRec.name).Pairwise (· ≠ ·) ∧
    (deduplicate_names nodes).map NodeRec.rest = nodes.map NodeRec.rest ∧
    (deduplicate_names nodes).length = nodes.length ∧
    ∀ i, i < nodes.length →
      ((deduplicate_names nodes).map NodeRec.name).getD i "" =
        (if ((nodes.map NodeRec.name).take (i + 1)).count
              ((nodes.map NodeRec.name).getD i "") = 1
         then (nodes.map NodeRec.name).getD i ""
         else renameDup ((nodes.map NodeRec.name).getD i "")
           (((nodes.map NodeRec.name).take (i + 1)).count
              ((nodes.map NodeRec.name).getD i ""))) := by
  have h0 : (fun _ : String => 0) = fun x => ([] : List String).count x := by
    funext x
    simp
  have hnames : (deduplicate_names nodes).map NodeRec.name
      = dedupNames [] (nodes.map NodeRec.name) := by
    rw [deduplicate_names, h0, dedupGo_names]
  have Hn : ∀ nm ∈ nodes.map NodeRec.name, ¬ List.IsInfix [' ', '('] nm.data := by
    intro nm hnm
    obtain ⟨n, hn, rfl⟩ := List.mem_map.mp hnm
    exact H n hn
  refine ⟨?_, ?_, ?_, ?_⟩
  · rw [hnames]
    exact dedupNames_nodup _ Hn
  · rw [deduplicate_names]
    exact dedupGo_rests nodes _
  · have := congrArg List.length hnames
    simpa [dedupNames_length] using this
  · intro i hilt
    have hi2 : i < (nodes.map NodeRec.name).length := by simpa using hilt
    rw [hnames, List.getD, List.get?_eq_getElem?,
      dedupNames_getElem? _ [] i hi2, List.nil_append]
    simp

/-- Witness for C10: on the concrete batch A, A, B the theorem's
    hypothesis holds and the output names A, A (2), B are pairwise
    distinct. -/
theorem C10_dedup_witness :
    ((deduplicate_names
        [{ name := "A", rest := [("server", "s1")] }, { name := "A", rest := [] },
         { name := "B", rest := [] }]).map NodeRec.name).Pairwise (· ≠ ·) ∧
    (deduplicate_names
        [{ name := "A", rest := [("server", "s1")] }, { name := "A", rest := [] },
         { name := "B", rest := [] }]).map NodeRec.name = ["A", "A (2)", "B"] :=
  ⟨(C10_dedup_unique_names _ (by decide)).1, by decide⟩

/-- Counterexample for C10 as originally stated: on the input batch
    A, A, A (2) the renamed second occurrence of A collides with the
    literal node name A (2), so the output names are NOT pairwise
    distinct. -/
theorem C10_dedup_counterexample :
    (deduplicate_names
        [{ name := "A", rest := [] }, { name := "A", rest := [] },
         { name := "A (2)", rest := [] }]).map NodeRec.name
      = ["A", "A (2)", "A (2)"] ∧
    ¬ ((deduplicate_names
        [{ name := "A", rest := [] }, { name := "A", rest := [] },
         { name := "A (2)", rest := [] }]).map NodeRec.name).Pairwise (· ≠ ·) := by
  refine ⟨by decide, ?_⟩
  intro hp
  have := List.pairwise_iff_getElem.mp hp 1 2 (by decide) (by decide) (by decide)
  exact this (by decide)

